import Mathlib

/-!
Shallow embedding of the filter-and-aggregate pipeline of the retail
inventory dashboard (`src/app.py`) and proofs about it.

Modelling conventions:
* A dataframe cell that pandas would hold as `NaN` (missing numeric value)
  or `NaT` (missing date) is modelled as `none`.
* Numbers are modelled as `Rat` (exact arithmetic standing for the float
  computations of pandas), dates as `Int` (day numbers; pandas datetimes
  are totally ordered and only comparisons, min, max and day differences
  are used by the program).
* Column presence is dynamic in the source (`if 'X' in df.columns`), so a
  `Dataset` carries presence flags next to its rows.
* Python exceptions are modelled with `Except String`: the filter code of
  the source can actually raise (see `pdAnyMethod` below), everything else
  in scope is total.
* pandas reductions (`sum`, `mean`, `min`, `max`, `groupby(...).sum()`)
  skip missing values by default (`skipna=True`); the embeddings below
  drop `none` cells accordingly.
-/

namespace RetailDashboard

open scoped List

attribute [local semireducible] Rat.add Rat.mul Rat.sub Rat.inv

/-- One dataset row.  The categorical cells are strings (the empty string
is the only falsy string value, matching Python truthiness); `date` is the
value of the detected date column (`none` = NaT); the numeric measures are
`none` when the cell is NaN. -/
structure Row where
  store : String
  category : String
  product : String
  date : Option Int
  demandForecast : Option Rat
  stock : Option Rat
  sales : Option Rat
  stockout : Option Rat
deriving DecidableEq

/-- A loaded dataframe: presence flags for the optional columns used by
the filter pipeline, plus the ordered rows.  `hasDate` says whether
`load_data` detected a date column (src/app.py lines 17-24). -/
structure Dataset where
  hasStore : Bool
  hasCategory : Bool
  hasProduct : Bool
  hasDate : Bool
  rows : List Row
deriving DecidableEq

/-- The sidebar filter selection: multiselect values for the three
categorical dimensions and the optional inclusive date range
(src/app.py lines 34-43). -/
structure Selection where
  stores : List String
  categories : List String
  products : List String
  dateRange : Option (Int × Int)
deriving DecidableEq

/-- One step of `uniqueList`: append the element unless it was seen. -/
def insertUnique {α : Type} [DecidableEq α] (acc : List α) (x : α) :
    List α :=
  if x ∈ acc then acc else acc ++ [x]

/-- Embedding of `Series.unique()`: the distinct values of a list in first
occurrence order. -/
def uniqueList {α : Type} [DecidableEq α] (l : List α) : List α :=
  l.foldl insertUnique []

/-- Python truthiness of a string: every nonempty string is truthy. -/
def truthyStr (s : String) : Bool := !(s == "")

/-- Truthiness-based `ndarray.any()` over object dtype values. -/
def anyTruthy (vs : List String) : Bool := vs.any truthyStr

/-- The value of `stores` / `categories` / `products` in the source
(src/app.py lines 30-32): the unique column values as a numpy array when
the column is present, and the plain Python literal `[]` otherwise. -/
inductive PdColVals where
  | ndarray (vals : List String)
  | pylist
deriving DecidableEq

/-- Embedding of src/app.py lines 30-32, e.g.
`stores = df['Store'].unique() if 'Store' in df.columns else []`. -/
def colUnique (present : Bool) (vals : List String) : PdColVals :=
  if present then PdColVals.ndarray (uniqueList vals) else PdColVals.pylist

/-- The `.any()` method call of src/app.py lines 47-49.  On a numpy object
array it reduces truthiness over the elements; a plain Python list has no
such method, so the call raises `AttributeError`. -/
def pdAnyMethod : PdColVals → Except String Bool
  | PdColVals.ndarray vs => Except.ok (anyTruthy vs)
  | PdColVals.pylist =>
      Except.error "AttributeError: list object has no attribute any"

def storeVals (df : Dataset) : PdColVals :=
  colUnique df.hasStore (df.rows.map Row.store)

def categoryVals (df : Dataset) : PdColVals :=
  colUnique df.hasCategory (df.rows.map Row.category)

def productVals (df : Dataset) : PdColVals :=
  colUnique df.hasProduct (df.rows.map Row.product)

/-- The per-row boolean mask of src/app.py lines 46-52, given the already
computed `.any()` results of the three dimension guards.  When a guard is
false the corresponding conjunct is the scalar `True`; the date conjunct
applies only when a range is given and a date column exists, and a NaT
date compares false against both endpoints (so such a row is dropped). -/
def rowMask (sAny cAny pAny : Bool) (df : Dataset) (sel : Selection)
    (r : Row) : Bool :=
  (!sAny || decide (r.store ∈ sel.stores)) &&
  (!cAny || decide (r.category ∈ sel.categories)) &&
  (!pAny || decide (r.product ∈ sel.products)) &&
  (match sel.dateRange, df.hasDate with
   | some (a, b), true =>
       match r.date with
       | some d => decide (a ≤ d) && decide (d ≤ b)
       | none => false
   | _, _ => true)

/-- Embedding of the filter application, src/app.py lines 46-54.  The
three `.any()` calls are evaluated left to right (each can raise, see
`pdAnyMethod`).  When every conjunct of `mask` is the scalar `True`
(no dimension guard fired and no date filter applies), `mask` is the
Python bool `True` rather than a boolean Series, and `df[True]` raises
`KeyError`; otherwise the mask is a Series and `df[mask]` keeps exactly
the rows whose mask entry is true, in dataframe order. -/
def applyFilters (df : Dataset) (sel : Selection) :
    Except String (List Row) :=
  match pdAnyMethod (storeVals df), pdAnyMethod (categoryVals df),
      pdAnyMethod (productVals df) with
  | Except.error e, _, _ => Except.error e
  | Except.ok _, Except.error e, _ => Except.error e
  | Except.ok _, Except.ok _, Except.error e => Except.error e
  | Except.ok sAny, Except.ok cAny, Except.ok pAny =>
      if sAny || cAny || pAny || (df.hasDate && sel.dateRange.isSome) then
        Except.ok (df.rows.filter (rowMask sAny cAny pAny df sel))
      else
        Except.error "KeyError: True"

/-- Modelled from the words of the spec (section 3, Filtered View, and
claim C1): a row belongs to the Filtered View iff its store, category and
product are members of the respective selected sets and, when a date
column exists and a range is given, its date lies inclusively between the
endpoints (a row with no date value has no date in the range). -/
def specFilterPred (hasDate : Bool) (sel : Selection) (r : Row) : Bool :=
  decide (r.store ∈ sel.stores) &&
  decide (r.category ∈ sel.categories) &&
  decide (r.product ∈ sel.products) &&
  (match sel.dateRange, hasDate with
   | some (a, b), true =>
       match r.date with
       | some d => decide (a ≤ d) && decide (d ≤ b)
       | none => false
   | _, _ => true)

/-- Sum of a numeric column with pandas `skipna=True` semantics: missing
cells contribute nothing; the sum of an empty or all-missing column is
`0` (as in `Series.sum()` with the default `min_count=0`). -/
def pdSum (val : Row → Option Rat) (view : List Row) : Rat :=
  (view.filterMap val).sum

/-- The coerce-missing-to-zero sum, defined only to be contrasted with
`pdSum` (claim C9 wording). -/
def sumCoerceZero (val : Row → Option Rat) (view : List Row) : Rat :=
  (view.map (fun r => (val r).getD 0)).sum

/-- pandas `Series.mean()` with `skipna=True`: the mean of the present
values, `NaN` (here `none`) when no value is present.  This is the
aggregation applied per window by `rolling('7D').mean()` in
src/app.py line 106. -/
def pdMean (vals : List (Option Rat)) : Option Rat :=
  if (vals.filterMap id).isEmpty then none
  else some ((vals.filterMap id).sum / ((vals.filterMap id).length : Rat))

/-- The coerce-missing-to-zero mean, defined only to be contrasted with
`pdMean` (claim C9 wording): every row contributes, a missing value as 0,
so the denominator counts all rows. -/
def meanCoerceZero (vals : List (Option Rat)) : Option Rat :=
  if vals.isEmpty then none else
    some ((vals.map (fun v => v.getD 0)).sum / (vals.length : Rat))

/-- Python `int(...)` applied to a float: truncation toward zero. -/
def pyInt (q : Rat) : Int := if 0 ≤ q then q.floor else q.ceil

/-- The Total Demand Forecast KPI, src/app.py line 74:
`int(filtered_df['Demand Forecast'].sum())`. -/
def kpiTotalDemand (view : List Row) : Int :=
  pyInt (pdSum Row.demandForecast view)

/-- The Total Stock KPI, src/app.py line 76. -/
def kpiTotalStock (view : List Row) : Int := pyInt (pdSum Row.stock view)

/-- The Total Sales KPI, src/app.py line 78. -/
def kpiTotalSales (view : List Row) : Int := pyInt (pdSum Row.sales view)

/-- The Stockout Days KPI, src/app.py line 80. -/
def kpiStockoutDays (view : List Row) : Int :=
  pyInt (pdSum Row.stockout view)

/-- Minimum of an integer list (empty list has none), used for the pandas
`Series.min()` over dates, which skips NaT. -/
def listMinI : List Int → Option Int
  | [] => none
  | x :: xs =>
      match listMinI xs with
      | none => some x
      | some m => some (min x m)

/-- Maximum of an integer list, see `listMinI`. -/
def listMaxI : List Int → Option Int
  | [] => none
  | x :: xs =>
      match listMaxI xs with
      | none => some x
      | some m => some (max x m)

/-- The non-missing dates of a view. -/
def presentDates (view : List Row) : List Int := view.filterMap Row.date

/-- `filtered_df[date_col].min()` (skips NaT, NaT on an empty or all-NaT
column). -/
def minDate (view : List Row) : Option Int := listMinI (presentDates view)

/-- `filtered_df[date_col].max()`, see `minDate`. -/
def maxDate (view : List Row) : Option Int := listMaxI (presentDates view)

/-- The Date Range (days) KPI, src/app.py line 82:
`(filtered_df[date_col].max() - filtered_df[date_col].min()).days + 1`.
On an empty (or all-NaT) view both reductions give NaT, the difference is
NaT, `NaT.days` is `nan` and `nan + 1` is `nan`: the result is missing,
modelled as `none`. -/
def dateRangeDays (view : List Row) : Option Int :=
  match maxDate view, minDate view with
  | some mx, some mn => some (mx - mn + 1)
  | _, _ => none

/-- Value-descending order on keyed entries; ties are allowed both ways,
so a stable sort by this relation keeps equal-valued entries in input
order, which is exactly the pandas `nlargest` tie rule
(`keep='first'`). -/
def valGe {κ : Type} (a b : κ × Rat) : Prop := b.2 ≤ a.2

/-- Value-ascending order on keyed entries, for `nsmallest`. -/
def valLe {κ : Type} (a b : κ × Rat) : Prop := a.2 ≤ b.2

instance {κ : Type} (a b : κ × Rat) : Decidable (valGe a b) :=
  inferInstanceAs (Decidable (b.2 ≤ a.2))

instance {κ : Type} (a b : κ × Rat) : Decidable (valLe a b) :=
  inferInstanceAs (Decidable (a.2 ≤ b.2))

instance {κ : Type} : IsTotal (κ × Rat) valGe :=
  ⟨fun a b => le_total b.2 a.2⟩

instance {κ : Type} : IsTrans (κ × Rat) valGe :=
  ⟨fun _ _ _ hab hbc => le_trans hbc hab⟩

instance {κ : Type} : IsTotal (κ × Rat) valLe :=
  ⟨fun a b => le_total a.2 b.2⟩

instance {κ : Type} : IsTrans (κ × Rat) valLe :=
  ⟨fun _ _ _ hab hbc => le_trans hab hbc⟩

/-- Strict lexicographic comparison of character lists by code point,
the order Python uses on strings. -/
def strLtData : List Char → List Char → Bool
  | [], [] => false
  | [], _ :: _ => true
  | _ :: _, [] => false
  | a :: as, b :: bs =>
      if a.val < b.val then true
      else if b.val < a.val then false
      else strLtData as bs

/-- Nonstrict string order by code point (Python string order, used by
pandas when sorting group keys). -/
def pyStrLe (a b : String) : Prop := strLtData b.data a.data = false

instance (a b : String) : Decidable (pyStrLe a b) :=
  inferInstanceAs (Decidable (strLtData b.data a.data = false))

/-- Embedding of `view.groupby(key)[val].sum()` for a key column without
missing values: one entry per distinct key, keys sorted ascending by
`keyLe` (the pandas groupby default `sort=True`), each group summing the
value column with missing cells skipped.  No claim depends on the group
order, only on which groups appear and on their sums. -/
def sumBy {κ : Type} [DecidableEq κ] (keyLe : κ → κ → Prop)
    [DecidableRel keyLe] (key : Row → κ) (val : Row → Option Rat)
    (view : List Row) : List (κ × Rat) :=
  ((uniqueList (view.map key)).insertionSort keyLe).map
    (fun k => (k, pdSum val (view.filter (fun r => decide (key r = k)))))

/-- Embedding of `view.groupby(date_col)[val].sum()`: rows whose date is
NaT are dropped by groupby, keys are the distinct present dates sorted
ascending. -/
def sumByDate (val : Row → Option Rat) (view : List Row) :
    List (Int × Rat) :=
  ((uniqueList (view.filterMap Row.date)).insertionSort (· ≤ ·)).map
    (fun d => (d, pdSum val (view.filter (fun r => decide (r.date = some d)))))

/-- Embedding of `Series.nlargest(n)` (pandas default `keep='first'`):
stable sort by value descending, take `n`.  Ties keep the order the
entries had in the input series. -/
def nlargest {κ : Type} (n : Nat) (l : List (κ × Rat)) : List (κ × Rat) :=
  (l.insertionSort valGe).take n

/-- Embedding of `Series.nsmallest(n)`: stable sort by value ascending,
take `n`. -/
def nsmallest {κ : Type} (n : Nat) (l : List (κ × Rat)) : List (κ × Rat) :=
  (l.insertionSort valLe).take n

/-- src/app.py line 123:
`prod_demand = filtered_df.groupby('Product')['Demand Forecast'].sum().nlargest(10)`. -/
def prodDemand (view : List Row) : List (String × Rat) :=
  nlargest 10 (sumBy pyStrLe Row.product Row.demandForecast view)

/-- src/app.py line 135:
`low_stock = filtered_df.groupby('Product')['Stock'].sum().nsmallest(10)`. -/
def lowStock (view : List Row) : List (String × Rat) :=
  nsmallest 10 (sumBy pyStrLe Row.product Row.stock view)

/-- src/app.py line 113:
`top_demand = filtered_df.groupby(date_col)['Demand Forecast'].sum().nlargest(10)`. -/
def topDemandDays (view : List Row) : List (Int × Rat) :=
  nlargest 10 (sumByDate Row.demandForecast view)

/-- src/app.py line 142: `abc = prod_demand.sort_values(ascending=False)`.
The input `prod_demand` is already sorted descending by value, so any
correct sort returns it unchanged; it is modelled as a stable descending
sort by value. -/
def sortValsDesc {κ : Type} (l : List (κ × Rat)) : List (κ × Rat) :=
  l.insertionSort valGe

/-- Running cumulative sums (`Series.cumsum()`), starting from `acc`. -/
def cumsumFrom (acc : Rat) : List Rat → List Rat
  | [] => []
  | x :: xs => (acc + x) :: cumsumFrom (acc + x) xs

/-- `Series.cumsum()`. -/
def cumsum (l : List Rat) : List Rat := cumsumFrom 0 l

/-- src/app.py lines 142-144: the ABC table.  `cum_pct = abc.cumsum() /
abc.sum()`: each entry carries its key, its summed value and the division
of its running sum by the grand total of `abc`.  When that total is `0`
every float division `c / 0.0` yields `NaN` or an infinity, never the
number `0`; the non-finite outcome is modelled as `none`. -/
def abcAnalysis (view : List Row) : List (String × Rat × Option Rat) :=
  let abc := sortValsDesc (prodDemand view)
  let total := (abc.map Prod.snd).sum
  (abc.zip (cumsum (abc.map Prod.snd))).map
    (fun p => (p.1.1, p.1.2, if total = 0 then none else some (p.2 / total)))

/-- Embedding of `pivot_table(index=rowKey, columns=colKey, values=val,
aggfunc='sum', fill_value=0)` (src/app.py lines 212 and 228): one cell
for every pair of observed row and column keys (both axes sorted
ascending), each cell the skipna sum of the value column over the
matching rows; a pair with no matching rows gets the fill value `0`. -/
def pivotTable (rowKey colKey : Row → String) (val : Row → Option Rat)
    (view : List Row) : List ((String × String) × Rat) :=
  ((uniqueList (view.map rowKey)).insertionSort pyStrLe).flatMap (fun p =>
    ((uniqueList (view.map colKey)).insertionSort pyStrLe).map (fun c =>
      ((p, c),
        pdSum val (view.filter
          (fun r => decide (rowKey r = p) && decide (colKey r = c))))))

/-- src/app.py line 219: `filtered_df[filtered_df['Stockout'] > 0]`.
A NaN stockout compares false against 0, so missing rows are dropped. -/
def stockoutEvents (view : List Row) : List Row :=
  view.filter (fun r =>
    match r.stockout with
    | some v => decide (0 < v)
    | none => false)

/-- The sidebar default selection for claim C4: the full set of observed
distinct values for every categorical dimension and, when a date column
exists, the full range from the dataset minimum date to its maximum
(src/app.py lines 34-41 with every value selected). -/
def fullSelection (df : Dataset) : Selection :=
  { stores := uniqueList (df.rows.map Row.store)
    categories := uniqueList (df.rows.map Row.category)
    products := uniqueList (df.rows.map Row.product)
    dateRange :=
      if df.hasDate then
        match minDate df.rows, maxDate df.rows with
        | some mn, some mx => some (mn, mx)
        | _, _ => none
      else none }

/-- Convenience constructor for sample rows: only the categorical cells,
the date and the demand forecast vary in the concrete instances below. -/
def sampleRow (s c p : String) (d : Option Int) (dem : Option Rat) : Row :=
  { store := s, category := c, product := p, date := d,
    demandForecast := dem, stock := none, sales := none, stockout := none }

/-- Concrete input refuting claim C1 as stated: the Store column is
present but every store value is the empty string, hence falsy, hence
`stores.any()` is false and the store membership predicate is skipped. -/
def c1df : Dataset :=
  { hasStore := true, hasCategory := true, hasProduct := true,
    hasDate := false, rows := [sampleRow "" "C" "P" none (some 1)] }

/-- Selection for the C1 counterexample: no store selected. -/
def c1sel : Selection :=
  { stores := [], categories := ["C"], products := ["P"], dateRange := none }

/-- Concrete dataset for the C1 witness. -/
def c1wdf : Dataset :=
  { hasStore := true, hasCategory := true, hasProduct := true,
    hasDate := true,
    rows := [sampleRow "S1" "C1" "P1" (some 1) (some 5),
             sampleRow "S2" "C1" "P2" (some 2) (some 7),
             sampleRow "S1" "C2" "P1" (some 3) (some 9)] }

/-- Selection for the C1 witness. -/
def c1wsel : Selection :=
  { stores := ["S1"], categories := ["C1"], products := ["P1"],
    dateRange := some (0, 2) }

/-- Concrete view for the C3 counterexample: one row whose demand
forecast is the non-integer 3/2. -/
def c3view : List Row := [sampleRow "S" "C" "P" none (some (Rat.divInt 3 2))]

/-- Concrete view for the C3 witness: integer-valued demand. -/
def c3wview : List Row :=
  [sampleRow "S" "C" "P" none (some 2), sampleRow "S" "C" "Q" none (some 3)]

/-- Concrete dataset for the C4 counterexample: the second row has a
missing (NaT) date. -/
def c4df : Dataset :=
  { hasStore := true, hasCategory := true, hasProduct := true,
    hasDate := true,
    rows := [sampleRow "S" "C" "P" (some 0) (some 1),
             sampleRow "S" "C" "P" none (some 2)] }

/-- Concrete dataset for the C4 witness: every row has a date. -/
def c4wdf : Dataset :=
  { hasStore := true, hasCategory := true, hasProduct := true,
    hasDate := true,
    rows := [sampleRow "S1" "C1" "P1" (some 3) (some 1),
             sampleRow "S2" "C2" "P2" (some 7) (some 2),
             sampleRow "S1" "C2" "P3" (some 5) none] }

/-- Concrete dataset for the C5 counterexample. -/
def c5df : Dataset :=
  { hasStore := true, hasCategory := true, hasProduct := true,
    hasDate := true, rows := [sampleRow "S" "C" "P" (some 1) (some 5)] }

/-- Selection excluding every row of `c5df` (no observed product is
selected), hence an empty Filtered View. -/
def c5sel : Selection :=
  { stores := ["S"], categories := ["C"], products := ["X"],
    dateRange := some (0, 2) }

/-- Concrete view for the C6 counterexample: a single product whose
summed demand, and hence the ABC grand total, is 0. -/
def c6view : List Row := [sampleRow "S" "C" "P" none (some 0)]

/-- Concrete view for the C7 witness. -/
def c7view : List Row :=
  [sampleRow "S1" "C" "A" none (some 3),
   sampleRow "S2" "C" "B" none (some 5),
   sampleRow "S2" "C" "A" none none]

/-- Concrete grouped mapping for the C8 witness: distinct keys with one
value tie between the first two entries. -/
def c8grouped : List (String × Rat) := [("B", 5), ("A", 5), ("C", 3)]

/-- Concrete failing input for claim C2: a dataset without a Store
column. -/
def c2df : Dataset :=
  { hasStore := false, hasCategory := true, hasProduct := true,
    hasDate := false, rows := [sampleRow "" "C" "P" none (some 1)] }

/-- Any selection triggers the C2 failure; this one selects the observed
category and product. -/
def c2sel : Selection :=
  { stores := [], categories := ["C"], products := ["P"], dateRange := none }

/-! ## Helper lemmas -/

theorem mem_insertUnique {α : Type} [DecidableEq α] {acc : List α} {x a : α} :
    a ∈ insertUnique acc x ↔ a ∈ acc ∨ a = x := by
  unfold insertUnique
  by_cases hx : x ∈ acc
  · simp only [hx, if_pos]
    constructor
    · exact Or.inl
    · rintro (h | rfl)
      · exact h
      · exact hx
  · simp [hx]

theorem mem_foldl_insertUnique {α : Type} [DecidableEq α] {a : α} :
    ∀ {l acc : List α}, a ∈ l.foldl insertUnique acc ↔ a ∈ acc ∨ a ∈ l := by
  intro l
  induction l with
  | nil => simp
  | cons x xs ih =>
    intro acc
    rw [List.foldl_cons, ih, mem_insertUnique]
    simp only [List.mem_cons]
    tauto

theorem mem_uniqueList {α : Type} [DecidableEq α] {a : α} {l : List α} :
    a ∈ uniqueList l ↔ a ∈ l := by
  rw [uniqueList, mem_foldl_insertUnique]
  simp

theorem nodup_insertUnique {α : Type} [DecidableEq α] {acc : List α} {x : α}
    (h : acc.Nodup) : (insertUnique acc x).Nodup := by
  unfold insertUnique
  by_cases hx : x ∈ acc
  · simpa [hx]
  · rw [if_neg hx]
    exact List.Nodup.append h (List.nodup_singleton x)
      (List.disjoint_singleton.mpr hx)

theorem nodup_foldl_insertUnique {α : Type} [DecidableEq α] :
    ∀ {l acc : List α}, acc.Nodup → (l.foldl insertUnique acc).Nodup := by
  intro l
  induction l with
  | nil => exact fun h => h
  | cons x xs ih =>
    intro acc hacc
    exact ih (nodup_insertUnique hacc)

theorem nodup_uniqueList {α : Type} [DecidableEq α] {l : List α} :
    (uniqueList l).Nodup :=
  nodup_foldl_insertUnique List.nodup_nil

/-! ## Claim C1 -/

/-- C1 (amended).  Whenever the three categorical columns are present and
each contains at least one truthy (nonempty) value, the Filtered View is
exactly the subsequence of dataset rows, in original order, satisfying
the conjunction of the three membership predicates and the inclusive
date-range predicate of the spec.  (As stated the claim also covers
datasets where a column is all empty strings; the counterexample below
shows the code then skips that membership predicate.) -/
theorem C1_filtered_view (df : Dataset) (sel : Selection)
    (hs : df.hasStore = true) (hc : df.hasCategory = true)
    (hp : df.hasProduct = true)
    (hst : anyTruthy (uniqueList (df.rows.map Row.store)) = true)
    (hct : anyTruthy (uniqueList (df.rows.map Row.category)) = true)
    (hpt : anyTruthy (uniqueList (df.rows.map Row.product)) = true) :
    applyFilters df sel =
      Except.ok (df.rows.filter (specFilterPred df.hasDate sel)) := by
  have hmask : rowMask true true true df sel = specFilterPred df.hasDate sel := by
    funext r
    simp only [rowMask, specFilterPred, Bool.not_true, Bool.false_or]
  have h1 : pdAnyMethod (storeVals df) = Except.ok true := by
    simp [storeVals, colUnique, hs, pdAnyMethod, hst]
  have h2 : pdAnyMethod (categoryVals df) = Except.ok true := by
    simp [categoryVals, colUnique, hc, pdAnyMethod, hct]
  have h3 : pdAnyMethod (productVals df) = Except.ok true := by
    simp [productVals, colUnique, hp, pdAnyMethod, hpt]
  rw [applyFilters, h1, h2, h3]
  simp only [Bool.true_or, if_true, hmask]

/-- Witness for C1 at a concrete dataset and selection. -/
theorem C1_filtered_view_witness :
    applyFilters c1wdf c1wsel =
      Except.ok (c1wdf.rows.filter (specFilterPred c1wdf.hasDate c1wsel)) :=
  C1_filtered_view c1wdf c1wsel rfl rfl rfl (by decide) (by decide) (by decide)

/-- Counterexample to C1 as stated: on `c1df` the Store column is present
but all its values are empty strings, so `stores.any()` is false and the
store membership predicate is skipped; the code keeps the row although no
store is selected, while the claimed conjunction keeps nothing. -/
theorem C1_filtered_view_counterexample :
    applyFilters c1df c1sel = Except.ok c1df.rows ∧
      c1df.rows.filter (specFilterPred c1df.hasDate c1sel) = [] ∧
      c1df.rows ≠ [] :=
  ⟨rfl, by decide, by decide⟩

/-! ## Claim C2 -/

/-- C2 (code bug).  On a dataset whose Store column is absent the source
sets `stores = []`, a plain Python list, and then calls `stores.any()`,
which raises `AttributeError` instead of skipping the predicate as the
spec requires: filtering fails on every dataset lacking a categorical
dimension column. -/
theorem C2_absent_column_attribute_error :
    applyFilters c2df c2sel =
      Except.error "AttributeError: list object has no attribute any" := rfl

/-! ## Claim C3 -/

/-- C3 (amended).  The total-demand KPI is `int(...)` of the exact sum,
i.e. the truncation toward zero; it equals the exact sum of the Demand
Forecast values over the Filtered View exactly when that sum is an
integer (denominator 1). -/
theorem C3_total_demand_kpi (view : List Row)
    (h : (pdSum Row.demandForecast view).den = 1) :
    (kpiTotalDemand view : Rat) = pdSum Row.demandForecast view := by
  unfold kpiTotalDemand pyInt
  set q := pdSum Row.demandForecast view with hq
  have hfloor : q.floor = q.num := by rw [Rat.floor]; simp [h]
  have hceil : q.ceil = q.num := by rw [Rat.ceil]; simp [h]
  have hcast : (q.num : Rat) = q := by
    apply Rat.ext <;> simp [h]
  by_cases h0 : 0 ≤ q <;> simp only [h0, if_pos, if_neg, hfloor, hceil,
    hcast, if_true, if_false]

/-- Witness for C3 at a view whose demand sum is the integer 5. -/
theorem C3_total_demand_kpi_witness :
    (kpiTotalDemand c3wview : Rat) = pdSum Row.demandForecast c3wview :=
  C3_total_demand_kpi c3wview (by decide)

/-- Counterexample to C3 as stated: a single row with demand forecast
3/2 gives an exact sum of 3/2, but the KPI displays `int(1.5) = 1`. -/
theorem C3_total_demand_kpi_counterexample :
    kpiTotalDemand c3view = 1 ∧
      pdSum Row.demandForecast c3view = Rat.divInt 3 2 ∧
      (kpiTotalDemand c3view : Rat) ≠ pdSum Row.demandForecast c3view := by
  refine ⟨by decide, by decide, ?_⟩
  intro hcontra
  have : ((1 : Int) : Rat) = Rat.divInt 3 2 := by
    have h1 : kpiTotalDemand c3view = 1 := by decide
    have h2 : pdSum Row.demandForecast c3view = Rat.divInt 3 2 := by decide
    rw [h1, h2] at hcontra
    exact hcontra
  norm_num [Rat.divInt] at this

/-! ## Claim C4 -/

theorem listMinI_eq_none {l : List Int} : listMinI l = none ↔ l = [] := by
  cases l with
  | nil => simp [listMinI]
  | cons x xs =>
    rw [listMinI]
    cases hys : listMinI xs <;> simp

theorem listMaxI_eq_none {l : List Int} : listMaxI l = none ↔ l = [] := by
  cases l with
  | nil => simp [listMaxI]
  | cons x xs =>
    rw [listMaxI]
    cases hys : listMaxI xs <;> simp

theorem listMinI_le {l : List Int} {m : Int} (h : listMinI l = some m) :
    ∀ x ∈ l, m ≤ x := by
  induction l generalizing m with
  | nil => simp [listMinI] at h
  | cons y ys ih =>
    rw [listMinI] at h
    cases hys : listMinI ys with
    | none =>
      rw [hys] at h
      injection h with h
      subst h
      intro x hx
      rcases List.mem_cons.mp hx with rfl | hx
      · exact le_refl x
      · rw [listMinI_eq_none.mp hys] at hx
        cases hx
    | some m2 =>
      rw [hys] at h
      injection h with h
      subst h
      intro x hx
      rcases List.mem_cons.mp hx with rfl | hx
      · exact min_le_left _ _
      · exact le_trans (min_le_right _ _) (ih hys x hx)

theorem le_listMaxI {l : List Int} {mx : Int} (h : listMaxI l = some mx) :
    ∀ x ∈ l, x ≤ mx := by
  induction l generalizing mx with
  | nil => simp [listMaxI] at h
  | cons y ys ih =>
    rw [listMaxI] at h
    cases hys : listMaxI ys with
    | none =>
      rw [hys] at h
      injection h with h
      subst h
      intro x hx
      rcases List.mem_cons.mp hx with rfl | hx
      · exact le_refl x
      · rw [listMaxI_eq_none.mp hys] at hx
        cases hx
    | some m2 =>
      rw [hys] at h
      injection h with h
      subst h
      intro x hx
      rcases List.mem_cons.mp hx with rfl | hx
      · exact le_max_left _ _
      · exact le_trans (ih hys x hx) (le_max_right _ _)

/-- C4 (amended).  Filtering with the full selection (all observed values
of every categorical dimension, full date range) returns the dataset
unchanged, provided the three categorical columns are present, every row
has a date when a date column exists, the dataset is nonempty, and at
least one mask conjunct is an actual Series (some dimension has a truthy
value or a date column exists) so that `df[mask]` is column selection by
a Series rather than the crashing `df[True]`. -/
theorem C4_full_selection_identity (df : Dataset)
    (hs : df.hasStore = true) (hc : df.hasCategory = true)
    (hp : df.hasProduct = true)
    (hne : df.rows ≠ [])
    (hdates : df.hasDate = true → ∀ r ∈ df.rows, (r.date).isSome = true)
    (happ : anyTruthy (uniqueList (df.rows.map Row.store)) = true ∨
        anyTruthy (uniqueList (df.rows.map Row.category)) = true ∨
        anyTruthy (uniqueList (df.rows.map Row.product)) = true ∨
        df.hasDate = true) :
    applyFilters df (fullSelection df) = Except.ok df.rows := by
  have hrange : df.hasDate = true →
      ∃ mn mx, minDate df.rows = some mn ∧ maxDate df.rows = some mx ∧
        (fullSelection df).dateRange = some (mn, mx) := by
    intro hd
    obtain ⟨r0, hr0⟩ := List.exists_mem_of_ne_nil df.rows hne
    obtain ⟨d0, hd0⟩ := Option.isSome_iff_exists.mp (hdates hd r0 hr0)
    have hpd : presentDates df.rows ≠ [] := by
      intro hemp
      have : d0 ∈ presentDates df.rows :=
        List.mem_filterMap.mpr ⟨r0, hr0, hd0⟩
      rw [hemp] at this
      cases this
    have hmin : ∃ mn, minDate df.rows = some mn := by
      cases hm : minDate df.rows with
      | none => exact absurd (listMinI_eq_none.mp hm) hpd
      | some mn => exact ⟨mn, rfl⟩
    have hmax : ∃ mx, maxDate df.rows = some mx := by
      cases hm : maxDate df.rows with
      | none => exact absurd (listMaxI_eq_none.mp hm) hpd
      | some mx => exact ⟨mx, rfl⟩
    obtain ⟨mn, hmn⟩ := hmin
    obtain ⟨mx, hmx⟩ := hmax
    exact ⟨mn, mx, hmn, hmx, by simp [fullSelection, hd, hmn, hmx]⟩
  have hmaskAll : ∀ sA cA pA : Bool, ∀ r ∈ df.rows,
      rowMask sA cA pA df (fullSelection df) r = true := by
    intro sA cA pA r hr
    have h1 : decide (r.store ∈ (fullSelection df).stores) = true := by
      simp only [fullSelection, decide_eq_true_eq]
      exact mem_uniqueList.mpr (List.mem_map_of_mem Row.store hr)
    have h2 : decide (r.category ∈ (fullSelection df).categories) = true := by
      simp only [fullSelection, decide_eq_true_eq]
      exact mem_uniqueList.mpr (List.mem_map_of_mem Row.category hr)
    have h3 : decide (r.product ∈ (fullSelection df).products) = true := by
      simp only [fullSelection, decide_eq_true_eq]
      exact mem_uniqueList.mpr (List.mem_map_of_mem Row.product hr)
    unfold rowMask
    rw [h1, h2, h3]
    simp only [Bool.or_true, Bool.true_and]
    cases hd : df.hasDate with
    | false =>
      have : (fullSelection df).dateRange = none := by
        simp [fullSelection, hd]
      rw [this]
    | true =>
      obtain ⟨mn, mx, hmn, hmx, hdr⟩ := hrange hd
      rw [hdr]
      obtain ⟨d, hdate⟩ := Option.isSome_iff_exists.mp (hdates hd r hr)
      rw [hdate]
      have hdm : d ∈ presentDates df.rows :=
        List.mem_filterMap.mpr ⟨r, hr, hdate⟩
      have hl : mn ≤ d := listMinI_le hmn d hdm
      have hu : d ≤ mx := le_listMaxI hmx d hdm
      simp [hl, hu]
  have h1 : pdAnyMethod (storeVals df) =
      Except.ok (anyTruthy (uniqueList (df.rows.map Row.store))) := by
    simp [storeVals, colUnique, hs, pdAnyMethod]
  have h2 : pdAnyMethod (categoryVals df) =
      Except.ok (anyTruthy (uniqueList (df.rows.map Row.category))) := by
    simp [categoryVals, colUnique, hc, pdAnyMethod]
  have h3 : pdAnyMethod (productVals df) =
      Except.ok (anyTruthy (uniqueList (df.rows.map Row.product))) := by
    simp [productVals, colUnique, hp, pdAnyMethod]
  rw [applyFilters]
  rw [h1, h2, h3]
  have hcond : (anyTruthy (uniqueList (df.rows.map Row.store)) ||
      anyTruthy (uniqueList (df.rows.map Row.category)) ||
      anyTruthy (uniqueList (df.rows.map Row.product)) ||
      (df.hasDate && (fullSelection df).dateRange.isSome)) = true := by
    rcases happ with h | h | h | h
    · simp [h]
    · simp [h]
    · simp [h]
    · obtain ⟨mn, mx, _, _, hdr⟩ := hrange h
      simp [h, hdr]
  simp only [hcond, if_true]
  rw [List.filter_eq_self.mpr (hmaskAll _ _ _)]

/-- Witness for C4 at a concrete three-row dataset with dates. -/
theorem C4_full_selection_identity_witness :
    applyFilters c4wdf (fullSelection c4wdf) = Except.ok c4wdf.rows :=
  C4_full_selection_identity c4wdf rfl rfl rfl (by decide) (by decide)
    (Or.inl (by decide))

/-- Counterexample to C4 as stated: `c4df` has a row with a missing
(NaT) date; the full date range is computed from the present dates only,
and the NaT row compares false against both endpoints, so the full
selection drops it and the Filtered View is a strict subsequence of the
dataset. -/
theorem C4_full_selection_identity_counterexample :
    applyFilters c4df (fullSelection c4df) =
      Except.ok [sampleRow "S" "C" "P" (some 0) (some 1)] ∧
      [sampleRow "S" "C" "P" (some 0) (some 1)] ≠ c4df.rows :=
  ⟨rfl, by decide⟩

/-! ## Claim C5 -/

/-- C5 (amended).  On an empty Filtered View every aggregator of the
dashboard returns an empty or zero result and, being a total function in
this model, never raises: the four KPI sums are 0, every grouping,
ranking, ABC table and pivot is empty, and the stockout table is empty.
The one exception forced by the counterexample below: the date-range-days
KPI evaluates to NaT/NaN (a missing value, `none`), not to zero. -/
theorem C5_empty_view_aggregates (view : List Row) (hv : view = []) :
    kpiTotalDemand view = 0 ∧ kpiTotalStock view = 0 ∧
      kpiTotalSales view = 0 ∧ kpiStockoutDays view = 0 ∧
      dateRangeDays view = none ∧
      sumBy pyStrLe Row.product Row.demandForecast view = [] ∧
      sumByDate Row.demandForecast view = [] ∧
      prodDemand view = [] ∧ lowStock view = [] ∧
      topDemandDays view = [] ∧ abcAnalysis view = [] ∧
      pivotTable Row.product Row.store Row.demandForecast view = [] ∧
      pivotTable Row.store Row.category Row.demandForecast view = [] ∧
      stockoutEvents view = [] ∧ pdMean (view.map Row.demandForecast) = none := by
  subst hv
  decide

/-- Witness for C5: a concrete dataset and selection whose Filtered View
is empty, with the aggregators evaluated there. -/
theorem C5_empty_view_aggregates_witness :
    applyFilters c5df c5sel = Except.ok [] ∧
      (kpiTotalDemand [] = 0 ∧ kpiTotalStock [] = 0 ∧
        kpiTotalSales [] = 0 ∧ kpiStockoutDays [] = 0 ∧
        dateRangeDays [] = none ∧
        sumBy pyStrLe Row.product Row.demandForecast [] = [] ∧
        sumByDate Row.demandForecast [] = [] ∧
        prodDemand [] = [] ∧ lowStock [] = [] ∧
        topDemandDays [] = [] ∧ abcAnalysis [] = [] ∧
        pivotTable Row.product Row.store Row.demandForecast [] = [] ∧
        pivotTable Row.store Row.category Row.demandForecast [] = [] ∧
        stockoutEvents [] = [] ∧ pdMean (List.map Row.demandForecast []) = none) :=
  ⟨rfl, C5_empty_view_aggregates [] rfl⟩

/-- Counterexample to C5 as stated: the concrete selection `c5sel` over
`c5df` produces an empty Filtered View, and on it the date-range-days KPI
is the missing value NaN (`(NaT - NaT).days + 1`), not the zero result
the claim promises. -/
theorem C5_empty_view_counterexample :
    applyFilters c5df c5sel = Except.ok [] ∧
      dateRangeDays [] = none ∧ dateRangeDays [] ≠ some 0 :=
  ⟨rfl, rfl, by decide⟩

/-! ## Claim C6 -/

theorem nlargest_pairwise {κ : Type} (n : Nat) (l : List (κ × Rat)) :
    (nlargest n l).Pairwise valGe :=
  (List.sorted_insertionSort valGe l).sublist (List.take_sublist n _)

/-- C6 (amended).  The ABC table re-sorts the already-sorted top-10
ranking, a no-op, and divides each running sum by the total over exactly
those at most 10 retained groups; when that total is 0, every
cumulative fraction is the non-finite `NaN` (modelled `none`), not 0. -/
theorem C6_abc_analysis (view : List Row) :
    abcAnalysis view =
      ((prodDemand view).zip (cumsum ((prodDemand view).map Prod.snd))).map
        (fun p => (p.1.1, p.1.2,
          if ((prodDemand view).map Prod.snd).sum = 0 then none
          else some (p.2 / ((prodDemand view).map Prod.snd).sum))) := by
  unfold abcAnalysis
  rw [show sortValsDesc (prodDemand view) = prodDemand view from
    List.Sorted.insertionSort_eq (nlargest_pairwise 10 _)]

/-- Counterexample to C6 as stated: a view with one product of summed
demand 0 has grand total 0; the claim says every cumulative fraction is
then 0, but the code computes `0.0 / 0.0`, which is NaN (`none`), and in
particular not 0. -/
theorem C6_abc_analysis_counterexample :
    abcAnalysis c6view = [("P", 0, none)] ∧
      abcAnalysis c6view ≠ [("P", 0, some 0)] :=
  ⟨by decide, by decide⟩

/-! ## Claim C7 -/

theorem pdSum_cons (val : Row → Option Rat) (r : Row) (t : List Row) :
    pdSum val (r :: t) = (val r).getD 0 + pdSum val t := by
  unfold pdSum
  rw [List.filterMap_cons]
  cases h : val r with
  | none => simp
  | some q => simp

theorem sum_map_add_single {κ : Type} [DecidableEq κ] (c : Rat) (f : κ → Rat) :
    ∀ (keys : List κ) (k0 : κ), keys.Nodup → k0 ∈ keys →
      (keys.map (fun k => (if k0 = k then c else 0) + f k)).sum
        = c + (keys.map f).sum := by
  intro keys
  induction keys with
  | nil =>
    intro k0 _ h
    cases h
  | cons k ks ih =>
    intro k0 hnd hmem
    simp only [List.map_cons, List.sum_cons]
    rcases List.mem_cons.mp hmem with rfl | hmem2
    · rw [if_pos rfl]
      have hrest : ks.map (fun k2 => (if k0 = k2 then c else 0) + f k2)
          = ks.map f := by
        apply List.map_congr_left
        intro k2 hk2
        have hne : k0 ≠ k2 := by
          intro he
          subst he
          exact (List.nodup_cons.mp hnd).1 hk2
        rw [if_neg hne, zero_add]
      rw [hrest]
      ring
    · have hne : k0 ≠ k := by
        intro he
        subst he
        exact (List.nodup_cons.mp hnd).1 hmem2
      rw [if_neg hne, zero_add, ih k0 (List.nodup_cons.mp hnd).2 hmem2]
      ring

/-- Grouping a skipna column sum over a duplicate-free list of keys that
covers every row conserves the total (no silent row drops). -/
theorem pdSum_partition {κ : Type} [DecidableEq κ] (val : Row → Option Rat)
    (key : Row → κ) :
    ∀ (view : List Row) (keys : List κ), keys.Nodup →
      (∀ r ∈ view, key r ∈ keys) →
      (keys.map (fun k =>
        pdSum val (view.filter (fun r => decide (key r = k))))).sum
        = pdSum val view := by
  intro view
  induction view with
  | nil =>
    intro keys _ _
    apply List.sum_eq_zero
    intro x hx
    obtain ⟨k, _, rfl⟩ := List.mem_map.mp hx
    rfl
  | cons r t ih =>
    intro keys hnd hcov
    have hstep : keys.map (fun k =>
          pdSum val ((r :: t).filter (fun x => decide (key x = k))))
        = keys.map (fun k => (if key r = k then (Option.getD (val r) 0) else 0)
            + pdSum val (t.filter (fun x => decide (key x = k)))) := by
      apply List.map_congr_left
      intro k _
      rw [List.filter_cons]
      by_cases he : key r = k
      · rw [if_pos (decide_eq_true he), if_pos he, pdSum_cons]
      · rw [if_neg (by simp [he]), if_neg he, zero_add]
    rw [hstep,
      sum_map_add_single _ _ keys (key r) hnd (hcov r (List.mem_cons_self r t)),
      ih keys hnd (fun x hx => hcov x (List.mem_cons_of_mem r hx)),
      pdSum_cons]

/-- C7 (confirmed).  For every view and dimensions, the pivot table has a
cell for every pair of observed row and column keys (the cell being the
group sum, 0 when no row matches the combination), and the sum of all
pivot cells equals the sum of the per-group sums of `sumBy`, which in
turn equals the total of the value column over the view (mass
conservation across reshaping). -/
theorem C7_pivot_mass_conservation (rowKey colKey : Row → String)
    (val : Row → Option Rat) (view : List Row) :
    (∀ p ∈ view.map rowKey, ∀ s ∈ view.map colKey,
        ((p, s), pdSum val (view.filter
            (fun r => decide (rowKey r = p) && decide (colKey r = s))))
          ∈ pivotTable rowKey colKey val view) ∧
      ((pivotTable rowKey colKey val view).map Prod.snd).sum
        = ((sumBy pyStrLe rowKey val view).map Prod.snd).sum ∧
      ((sumBy pyStrLe rowKey val view).map Prod.snd).sum = pdSum val view := by
  have hrknd : ((uniqueList (view.map rowKey)).insertionSort pyStrLe).Nodup :=
    ((List.perm_insertionSort pyStrLe _).nodup_iff).mpr nodup_uniqueList
  have hcknd : ((uniqueList (view.map colKey)).insertionSort pyStrLe).Nodup :=
    ((List.perm_insertionSort pyStrLe _).nodup_iff).mpr nodup_uniqueList
  have hrkcov : ∀ r ∈ view,
      rowKey r ∈ (uniqueList (view.map rowKey)).insertionSort pyStrLe :=
    fun r hr => (List.mem_insertionSort _).mpr
      (mem_uniqueList.mpr (List.mem_map_of_mem rowKey hr))
  have hckcov : ∀ r ∈ view,
      colKey r ∈ (uniqueList (view.map colKey)).insertionSort pyStrLe :=
    fun r hr => (List.mem_insertionSort _).mpr
      (mem_uniqueList.mpr (List.mem_map_of_mem colKey hr))
  have hsumBy : ((sumBy pyStrLe rowKey val view).map Prod.snd).sum
      = pdSum val view := by
    unfold sumBy
    rw [List.map_map]
    exact pdSum_partition val rowKey view _ hrknd hrkcov
  refine ⟨?_, ?_, hsumBy⟩
  · intro p hp s hs
    unfold pivotTable
    apply List.mem_flatMap.mpr
    refine ⟨p, (List.mem_insertionSort _).mpr (mem_uniqueList.mpr hp), ?_⟩
    exact List.mem_map_of_mem _ ((List.mem_insertionSort _).mpr
      (mem_uniqueList.mpr hs))
  · rw [hsumBy]
    unfold pivotTable
    rw [List.map_flatMap, List.flatMap_def, List.sum_flatten, List.map_map]
    have houter : ((uniqueList (view.map rowKey)).insertionSort pyStrLe).map
          (List.sum ∘ fun p => (((uniqueList (view.map colKey)).insertionSort
            pyStrLe).map (fun c => ((p, c), pdSum val (view.filter
              (fun r => decide (rowKey r = p) && decide (colKey r = c)))))).map
                Prod.snd)
        = ((uniqueList (view.map rowKey)).insertionSort pyStrLe).map
            (fun p => pdSum val (view.filter (fun r => decide (rowKey r = p)))) := by
      apply List.map_congr_left
      intro p _
      simp only [Function.comp, List.map_map]
      have hswap : ∀ s, view.filter
            (fun r => decide (rowKey r = p) && decide (colKey r = s))
          = (view.filter (fun r => decide (rowKey r = p))).filter
              (fun r => decide (colKey r = s)) := by
        intro s
        rw [List.filter_filter]
        exact List.filter_congr fun r _ => Bool.and_comm _ _
      have hmaps : ((uniqueList (view.map colKey)).insertionSort pyStrLe).map
            ((Prod.snd ∘ fun c => ((p, c), pdSum val (view.filter
              (fun r => decide (rowKey r = p) && decide (colKey r = c))))))
          = ((uniqueList (view.map colKey)).insertionSort pyStrLe).map
              (fun c => pdSum val ((view.filter
                (fun r => decide (rowKey r = p))).filter
                  (fun r => decide (colKey r = c)))) := by
        apply List.map_congr_left
        intro s _
        simp only [Function.comp]
        rw [hswap s]
      rw [hmaps]
      exact pdSum_partition val colKey _ _ hcknd
        (fun r hr => hckcov r (List.mem_filter.mp hr).1)
    rw [houter]
    exact pdSum_partition val rowKey view _ hrknd hrkcov

/-- Witness for C7: the pivot of `c7view` contains the cell for the
observed pair (product A, store S2) and its cells sum to the view total. -/
theorem C7_pivot_mass_conservation_witness :
    ((("A", "S2"), pdSum Row.demandForecast (c7view.filter
        (fun r => decide (Row.product r = "A") && decide (Row.store r = "S2"))))
      ∈ pivotTable Row.product Row.store Row.demandForecast c7view) ∧
    ((pivotTable Row.product Row.store Row.demandForecast c7view).map
        Prod.snd).sum = pdSum Row.demandForecast c7view :=
  ⟨(C7_pivot_mass_conservation Row.product Row.store Row.demandForecast
      c7view).1 "A" (by decide) "S2" (by decide),
    ((C7_pivot_mass_conservation Row.product Row.store Row.demandForecast
      c7view).2.1).trans
      ((C7_pivot_mass_conservation Row.product Row.store Row.demandForecast
        c7view).2.2)⟩

/-! ## Claim C8 -/

theorem sublist_take_of_mem_take {α : Type} :
    ∀ {s : List α} {n : Nat} {a b : α}, [a, b] <+ s → s.Nodup →
      b ∈ s.take n → [a, b] <+ s.take n := by
  intro s
  induction s with
  | nil =>
    intro n a b hab _ hb
    rw [List.take_nil] at hb
    cases hb
  | cons x t ih =>
    intro n a b hab hnd hb
    cases n with
    | zero =>
      rw [List.take_zero] at hb
      cases hb
    | succ m =>
      rw [List.take_succ_cons] at hb ⊢
      cases hab with
      | cons _ h =>
        have hbt : b ∈ t := h.subset (by simp)
        have hbx : b ≠ x := by
          intro he
          subst he
          exact (List.nodup_cons.mp hnd).1 hbt
        have hb2 : b ∈ t.take m := by
          rcases List.mem_cons.mp hb with he | h2
          · exact absurd he hbx
          · exact h2
        exact List.Sublist.cons x (ih h (List.nodup_cons.mp hnd).2 hb2)
      | cons₂ _ h =>
        have hbt : b ∈ t := List.singleton_sublist.mp h
        have hbx : b ≠ x := by
          intro he
          subst he
          exact (List.nodup_cons.mp hnd).1 hbt
        have hb2 : b ∈ t.take m := by
          rcases List.mem_cons.mp hb with he | h2
          · exact absurd he hbx
          · exact h2
        exact List.Sublist.cons₂ x (List.singleton_sublist.mpr hb2)

/-- Full specification of a stable sort-and-truncate ranking, proved once
and instantiated for `nlargest` (with `valGe`) and `nsmallest` (with
`valLe`): clamped length, sortedness, subset, dominance of the retained
entries over the excluded ones, and retention of input order on ties. -/
theorem sortTake_spec {α : Type} (le : α → α → Prop) [DecidableRel le]
    [IsTotal α le] [IsTrans α le] (n : Nat) (l : List α) (hnd : l.Nodup) :
    ((l.insertionSort le).take n).length = min n l.length ∧
      ((l.insertionSort le).take n).Pairwise le ∧
      (∀ x ∈ (l.insertionSort le).take n, x ∈ l) ∧
      (∀ x ∈ (l.insertionSort le).take n, ∀ y ∈ l,
          y ∉ (l.insertionSort le).take n → le x y) ∧
      (∀ a b : α, [a, b] <+ l → le a b → b ∈ (l.insertionSort le).take n →
          [a, b] <+ (l.insertionSort le).take n) := by
  refine ⟨?_, ?_, ?_, ?_, ?_⟩
  · rw [List.length_take, List.length_insertionSort]
  · exact (List.sorted_insertionSort le l).sublist (List.take_sublist n _)
  · intro x hx
    exact (List.mem_insertionSort le).mp ((List.take_sublist n _).subset hx)
  · intro x hx y hyl hynotin
    have hy : y ∈ l.insertionSort le := (List.mem_insertionSort le).mpr hyl
    rw [← List.take_append_drop n (l.insertionSort le)] at hy
    rcases List.mem_append.mp hy with h | h
    · exact absurd h hynotin
    · have hpw : ((l.insertionSort le).take n ++
          (l.insertionSort le).drop n).Pairwise le := by
        rw [List.take_append_drop]
        exact List.sorted_insertionSort le l
      exact (List.pairwise_append.mp hpw).2.2 x hx y h
  · intro a b hab hle hb
    exact sublist_take_of_mem_take
      (List.pair_sublist_insertionSort hle hab)
      (((List.perm_insertionSort le l).nodup_iff).mpr hnd) hb

/-- C8 (confirmed).  For every grouped mapping with distinct keys and
every n: `nlargest n` returns exactly `min n (number of groups)` entries,
sorted descending by value (`nsmallest n` ascending), each entry taken
from the grouped mapping, every excluded value at most (for `nsmallest`:
at least) every included value, and ties broken by first-seen entry
order.  This is the pandas `keep='first'` behaviour of lines 113, 123
and 135. -/
theorem C8_top_n (grouped : List (String × Rat)) (n : Nat)
    (hkeys : (grouped.map Prod.fst).Nodup) :
    ((nlargest n grouped).length = min n grouped.length ∧
      (nlargest n grouped).Pairwise valGe ∧
      (∀ x ∈ nlargest n grouped, x ∈ grouped) ∧
      (∀ x ∈ nlargest n grouped, ∀ y ∈ grouped, y ∉ nlargest n grouped →
        y.2 ≤ x.2) ∧
      (∀ a b : String × Rat, [a, b] <+ grouped → a.2 = b.2 →
        b ∈ nlargest n grouped → [a, b] <+ nlargest n grouped)) ∧
    ((nsmallest n grouped).length = min n grouped.length ∧
      (nsmallest n grouped).Pairwise valLe ∧
      (∀ x ∈ nsmallest n grouped, x ∈ grouped) ∧
      (∀ x ∈ nsmallest n grouped, ∀ y ∈ grouped, y ∉ nsmallest n grouped →
        x.2 ≤ y.2) ∧
      (∀ a b : String × Rat, [a, b] <+ grouped → a.2 = b.2 →
        b ∈ nsmallest n grouped → [a, b] <+ nsmallest n grouped)) := by
  have hnd : grouped.Nodup := List.Nodup.of_map Prod.fst hkeys
  obtain ⟨hg1, hg2, hg3, hg4, hg5⟩ := sortTake_spec valGe n grouped hnd
  obtain ⟨hl1, hl2, hl3, hl4, hl5⟩ := sortTake_spec valLe n grouped hnd
  exact ⟨⟨hg1, hg2, hg3, fun x hx y hy hyn => hg4 x hx y hy hyn,
      fun a b hab he hb => hg5 a b hab (le_of_eq he.symm) hb⟩,
    ⟨hl1, hl2, hl3, fun x hx y hy hyn => hl4 x hx y hy hyn,
      fun a b hab he hb => hl5 a b hab (le_of_eq he) hb⟩⟩

/-- Witness for C8 at a concrete grouped mapping with a value tie. -/
theorem C8_top_n_witness :
    (nlargest 2 c8grouped).length = min 2 c8grouped.length ∧
      ("B", (5 : Rat)) ∈ c8grouped :=
  ⟨(C8_top_n c8grouped 2 (by decide)).1.1,
    (C8_top_n c8grouped 2 (by decide)).1.2.2.1 ("B", 5) (by decide)⟩

/-! ## Claim C9 -/

theorem filterMap_filter_isSome (val : Row → Option Rat) :
    ∀ view : List Row,
      (view.filter (fun r => (val r).isSome)).filterMap val
        = view.filterMap val := by
  intro view
  induction view with
  | nil => rfl
  | cons r t ih =>
    cases hv : val r with
    | none => simp [List.filter_cons, List.filterMap_cons, hv, ih]
    | some q => simp [List.filter_cons, List.filterMap_cons, hv, ih]

theorem pdSum_eq_sumCoerceZero (val : Row → Option Rat) :
    ∀ view : List Row, pdSum val view = sumCoerceZero val view := by
  intro view
  induction view with
  | nil => rfl
  | cons r t ih =>
    rw [pdSum_cons, sumCoerceZero, List.map_cons, List.sum_cons, ih,
      sumCoerceZero]

/-- C9 (confirmed).  Every skipna aggregation excludes missing cells
instead of coercing them to 0: the column sum is unchanged when the rows
with missing values are dropped (so the Total Stock KPI of line 76 is
too), the column mean is likewise unchanged (its denominator counts only
the present values; a coerced 0 would enlarge it), and for a plain sum
the exclusion yields the same total as 0-coercion would, so only a mean
can be skewed. -/
theorem C9_missing_values_excluded (val : Row → Option Rat)
    (view : List Row) :
    pdSum val view = pdSum val (view.filter (fun r => (val r).isSome)) ∧
      pdMean (view.map val)
        = pdMean ((view.filter (fun r => (val r).isSome)).map val) ∧
      kpiTotalStock view
        = kpiTotalStock (view.filter (fun r => (Row.stock r).isSome)) ∧
      pdSum val view = sumCoerceZero val view := by
  refine ⟨?_, ?_, ?_, pdSum_eq_sumCoerceZero val view⟩
  · unfold pdSum
    rw [filterMap_filter_isSome]
  · unfold pdMean
    rw [List.filterMap_map, List.filterMap_map]
    simp only [Function.id_comp]
    rw [filterMap_filter_isSome]
  · unfold kpiTotalStock pdSum
    rw [filterMap_filter_isSome]

/-! ## Claim C10 -/

/-- C10 (confirmed).  The Stockout Events table is exactly the rows of
the Filtered View whose Stockout value is present and strictly positive,
kept in Filtered View order (a subsequence); rows with Stockout 0 or
missing (NaN compares false against 0) are excluded. -/
theorem C10_stockout_events (view : List Row) :
    stockoutEvents view <+ view ∧
      (∀ r : Row, r ∈ stockoutEvents view ↔
        (r ∈ view ∧ ∃ v : Rat, r.stockout = some v ∧ 0 < v)) := by
  constructor
  · exact List.filter_sublist view
  · intro r
    rw [stockoutEvents, List.mem_filter]
    constructor
    · rintro ⟨hm, hp⟩
      refine ⟨hm, ?_⟩
      cases hv : r.stockout with
      | none => rw [hv] at hp; cases hp
      | some v =>
        rw [hv] at hp
        exact ⟨v, rfl, of_decide_eq_true hp⟩
    · rintro ⟨hm, v, hv, hpos⟩
      refine ⟨hm, ?_⟩
      rw [hv]
      exact decide_eq_true hpos

end RetailDashboard
